import Mathlib

/-!
Verification of the MapProxy KML subdivision service (`mapproxy/service/kml.py`)
and the Mapnik render source (`mapproxy/source/mapnik.py`).

Coordinates are embedded as exact rationals (`ℚ`); tile coordinates as
integers.  The tile grid itself (`mapproxy/grid.py`) is not part of the
given sources, so its geometry is modelled from the spec: a pyramid over a
fixed extent in which cells double in each axis per level, and the
candidate children of a tile are the valid tiles of the next level whose
bounding boxes overlap the tile's box.
-/

/-- An axis-aligned bounding box `(minX, minY, maxX, maxY)`. -/
structure BBoxQ where
  minX : ℚ
  minY : ℚ
  maxX : ℚ
  maxY : ℚ
deriving Repr, DecidableEq

/-- Modelled from the spec: a `Grid` is a tile pyramid over a fixed extent in a
native spatial reference (identified by an EPSG code), together with the
forward transform of a bounding box into geographic (EPSG:4326) coordinates
(`grid.srs.transform_bbox_to(SRS(4326), ...)`, external to the given sources).
Level `L` divides the extent into `2^L × 2^L` cells. -/
structure Grid where
  extent : BBoxQ
  srsCode : ℕ
  transformToWgs : BBoxQ → BBoxQ

/-- Width of the grid's total extent. -/
def gridWidth (g : Grid) : ℚ := g.extent.maxX - g.extent.minX

/-- Height of the grid's total extent. -/
def gridHeight (g : Grid) : ℚ := g.extent.maxY - g.extent.minY

/-- The bounding box of cell `(x, y)` at `level`, ignoring validity. -/
def tileCellBBox (g : Grid) (x y : ℤ) (level : ℕ) : BBoxQ :=
  { minX := g.extent.minX + (x : ℚ) * (gridWidth g / 2 ^ level)
    minY := g.extent.minY + (y : ℚ) * (gridHeight g / 2 ^ level)
    maxX := g.extent.minX + ((x : ℚ) + 1) * (gridWidth g / 2 ^ level)
    maxY := g.extent.minY + ((y : ℚ) + 1) * (gridHeight g / 2 ^ level) }

/-- Embedding of `KMLServer._tile_bbox` (kml.py lines 138-142): the coordinate is first
validated (`grid.internal_tile_coord` returns `None` for a coordinate outside
the level's extent, modelled from the spec as `0 ≤ x,y < 2^level`), and `None`
is propagated; otherwise the cell's bounding box in the native reference. -/
def tileBBox (g : Grid) (x y : ℤ) (level : ℕ) : Option BBoxQ :=
  if 0 ≤ x ∧ x < 2 ^ level ∧ 0 ≤ y ∧ y < 2 ^ level then
    some (tileCellBBox g x y level)
  else none

/-- Strict overlap of two boxes (a shared edge or corner alone does not
count, mirroring the grid's exclusion of tiles that are only touched). -/
def bboxOverlaps (a b : BBoxQ) : Bool :=
  decide (a.minX < b.maxX) && decide (b.minX < a.maxX) &&
    decide (a.minY < b.maxY) && decide (b.minY < a.maxY)

/-- The integers `0, ..., n-1`. -/
def intRange (n : ℕ) : List ℤ :=
  (List.range n).map (Nat.cast : ℕ → ℤ)

/-- All cell coordinates of one pyramid level. -/
def levelCoords (level : ℕ) : List (ℤ × ℤ) :=
  (intRange (2 ^ level)).flatMap fun i =>
    (intRange (2 ^ level)).map fun j => (i, j)

/-- Whether the valid cell `c` of `level` overlaps `bbox`. -/
def overlapsCell (g : Grid) (bbox : BBoxQ) (level : ℕ) (c : ℤ × ℤ) : Bool :=
  match tileBBox g c.1 c.2 level with
  | some sb => bboxOverlaps sb bbox
  | none => false

/-- Modelled from the spec: `grid.get_affected_level_tiles(bbox, level)`
(external to the given sources) — the valid tiles of `level` whose bounding
boxes overlap `bbox`. -/
def getAffectedLevelTiles (g : Grid) (bbox : BBoxQ) (level : ℕ) : List (ℤ × ℤ) :=
  (levelCoords level).filter (overlapsCell g bbox level)

/-- The retention test of `KMLServer._get_subtiles` (kml.py lines 128-132):
a candidate with a valid bounding box is kept only when its lower-left corner
is at or above the parent box's lower-left corner. -/
def keepSubtile (g : Grid) (bbox : BBoxQ) (level : ℕ) (c : ℤ × ℤ) : Bool :=
  match tileBBox g c.1 c.2 level with
  | some sb => decide (bbox.minX ≤ sb.minX) && decide (bbox.minY ≤ sb.minY)
  | none => false

/-- Embedding of `KMLServer._get_subtiles` (kml.py lines 119-136): compute the parent's
bounding box, collect the affected tiles of `level+1`, and keep those passing
the lower-left-corner test.  (The source also attaches each retained tile's
transformed bounding box, modelled separately by `tileBBoxToWgs`; an invalid
parent yields the spec's empty result.) -/
def getSubtiles (g : Grid) (x y : ℤ) (level : ℕ) : List (ℤ × ℤ) :=
  match tileBBox g x y level with
  | none => []
  | some bbox =>
    (getAffectedLevelTiles g bbox (level + 1)).filter (keepSubtile g bbox (level + 1))

/-- Subdividing directly to `level+2`: the affected tiles two levels down,
filtered by the same lower-left-corner rule against the parent's box. -/
def subdivideTwiceKeepLL (g : Grid) (x y : ℤ) (level : ℕ) : List (ℤ × ℤ) :=
  match tileBBox g x y level with
  | none => []
  | some bbox =>
    (getAffectedLevelTiles g bbox (level + 2)).filter (keepSubtile g bbox (level + 2))

/-- The spherical web-projection's maximal extent `20037508.342789244`
(kml.py lines 154 and 156), as an exact rational. -/
def webMercMax : ℚ := 20037508342789244 / 1000000000

/-- Embedding of `KMLServer._tile_bbox_to_wgs` (kml.py lines 150-158): transform the source
box to geographic coordinates; when the grid's reference is EPSG:900913,
independently clamp the bottom edge to `-90` and the top edge to `90` whenever
the corresponding source edge is within `0.1` of `∓/±20037508.342789244`. -/
def tileBBoxToWgs (g : Grid) (srcBBox : BBoxQ) : BBoxQ :=
  let bbox := g.transformToWgs srcBBox
  if g.srsCode = 900913 then
    { bbox with
      minY := if |srcBBox.minY - -webMercMax| < 1 / 10 then -90 else bbox.minY
      maxY := if |srcBBox.maxY - webMercMax| < 1 / 10 then 90 else bbox.maxY }
  else bbox

/-- Embedding of `KMLServer._tile_wgs_bbox` (kml.py lines 144-148). -/
def tileWgsBBox (g : Grid) (x y : ℤ) (level : ℕ) : Option BBoxQ :=
  (tileBBox g x y level).map (tileBBoxToWgs g)

/-- A `RequestError` (message, optional HTTP status). -/
structure RequestErrorM where
  msg : String
  status : Option ℕ
deriving Repr, DecidableEq

/-- The subdivision part of `KMLServer.kml` (kml.py lines 94-106): if the
requested tile's geographic bounding box is `None` the handler raises a
`RequestError`; otherwise it renders the document from `_get_subtiles`. -/
def kmlSubdivide (g : Grid) (x y : ℤ) (level : ℕ) :
    Except RequestErrorM (List (ℤ × ℤ)) :=
  match tileWgsBBox g x y level with
  | none =>
    .error ⟨"The requested tile is outside the bounding box of the tile map.", none⟩
  | some _ => .ok (getSubtiles g x y level)

/-- The per-layer authorization info (`result['layers'][name]`): a dictionary
that may lack the `tile` key. -/
structure AuthLayerInfo where
  tile : Option Bool
deriving Repr, DecidableEq

/-- The authorization collaborator's result:
`{authorized: ..., layers: {name: {tile: ...}}}`. -/
structure AuthResult where
  authorized : String
  layers : List (String × AuthLayerInfo)
deriving Repr, DecidableEq

/-- Embedding of `result['layers'].get(layer_name, \x7b\x7d).get('tile', False)` (kml.py line 74):
a missing layer entry or a missing `tile` key defaults to `False`. -/
def layerTileFlag (ls : List (String × AuthLayerInfo)) (name : String) : Bool :=
  match ls.lookup name with
  | none => false
  | some info => info.tile.getD false

/-- Embedding of `KMLServer.authorize_tile_layer` (kml.py lines 68-76).  The environment's
`mapproxy.authorize` entry is modelled as an optional callback from service
name and layer-name list to an `AuthResult`; when absent the method returns
at once. -/
def authorizeTileLayer (auth : Option (String → List String → AuthResult))
    (layerName : String) : Except RequestErrorM Unit :=
  match auth with
  | none => .ok ()
  | some f =>
    let result := f "kml" [layerName]
    if result.authorized = "full" then .ok ()
    else if result.authorized = "partial" ∧ layerTileFlag result.layers layerName = true then
      .ok ()
    else .error ⟨"forbidden", some 403⟩

/-- A render query (`query` in mapnik.py): bounding box, pixel size, spatial
reference code and output format. -/
structure QueryM where
  bbox : BBoxQ
  size : ℕ × ℕ
  srsCode : ℕ
  format : String

/-- The returned `ImageSource`: byte length of the rendered data, pixel size,
and the opacity attached by `get_map`. -/
structure ImageSrcM where
  dataLen : ℕ
  size : ℕ × ℕ
  opacity : Option ℚ
deriving Repr, DecidableEq

/-- One `log_request` record (mapnik.py lines 105-106): HTTP-like status,
optional byte size, and the elapsed duration. -/
structure LogRecord where
  status : String
  size : Option ℕ
  duration : ℚ
deriving Repr, DecidableEq

/-- What the mapnik backend does for one invocation: return rendered bytes
(of a given length), raise a `RuntimeError`, or raise an `HTTPClientError`
while preparing the render. -/
inductive RenderOutcome where
  | ok (bytes : ℕ)
  | runtimeFault (msg : String)
  | httpFault (msg : String)
deriving Repr, DecidableEq

/-- A fault propagating out of the render pipeline before `get_map`
translates it. -/
inductive RenderFault where
  | runtime (msg : String)
  | http (msg : String)
deriving Repr, DecidableEq

/-- Embedding of `MapnikSource._render_mapfile` (mapnik.py lines 89-109): run the backend;
in the `finally` block always log status (`'200'` when data was produced,
`'500'` otherwise), the byte size (only when data was produced) and the
elapsed duration; then return the image or let the fault propagate. -/
def renderMapfile (q : QueryM) (outcome : RenderOutcome) (dur : ℚ) :
    Except RenderFault ImageSrcM × LogRecord :=
  match outcome with
  | .ok n =>
    (.ok ⟨n, q.size, none⟩,
      ⟨if 0 < n then "200" else "500", if 0 < n then some n else none, dur⟩)
  | .runtimeFault m => (.error (.runtime m), ⟨"500", none, dur⟩)
  | .httpFault m => (.error (.http m), ⟨"500", none, dur⟩)

/-- Observable lock/backend events of one `render` call. -/
inductive RenderEv where
  | acquire
  | invoke
  | release
deriving Repr, DecidableEq

/-- Embedding of the `MapnikSource` configuration (mapnik.py lines 44-53): the mapfile, the
optional resolution range (`res_range.contains(bbox, size, srs)`), the
optional coverage (`coverage.intersects(bbox, srs)`), whether a lock is
configured, and the source's opacity. -/
structure MSourceM where
  mapfile : String
  resRange : Option (BBoxQ → ℕ × ℕ → ℕ → Bool)
  coverage : Option (BBoxQ → ℕ → Bool)
  lock : Bool
  opacity : Option ℚ

/-- Embedding of `MapnikSource.render` (mapnik.py lines 73-84): when a lock is configured
the backend call runs inside `with self.lock()`, whose scoped semantics
acquire before the call and release on every exit path, normal or raising;
without a lock the backend is called directly.  The second component is the
event trace. -/
def render (s : MSourceM) (q : QueryM) (outcome : RenderOutcome) (dur : ℚ) :
    (Except RenderFault ImageSrcM × LogRecord) × List RenderEv :=
  if s.lock then
    (renderMapfile q outcome dur, [RenderEv.acquire, RenderEv.invoke, RenderEv.release])
  else
    (renderMapfile q outcome dur, [RenderEv.invoke])

/-- The result signal of `get_map`: the `BlankImage` applicability signal or a
`SourceError` carrying the original fault's message. -/
inductive GetMapSignal where
  | blankImage
  | sourceError (msg : String)
deriving Repr, DecidableEq

/-- Embedding of `self.res_range and not self.res_range.contains(...)` (mapnik.py 56-57). -/
def resRangeBlocks (s : MSourceM) (q : QueryM) : Bool :=
  match s.resRange with
  | some contains => !(contains q.bbox q.size q.srsCode)
  | none => false

/-- Embedding of `self.coverage and not self.coverage.intersects(...)` (mapnik.py 59). -/
def coverageBlocks (s : MSourceM) (q : QueryM) : Bool :=
  match s.coverage with
  | some inter => !(inter q.bbox q.srsCode)
  | none => false

/-- Embedding of `MapnikSource.get_map` (mapnik.py lines 55-71): the applicability checks
raise `BlankImage` before any backend work; a `RuntimeError` from the render
becomes `SourceError(ex.args[0])`; an `HTTPClientError` is reraised as
`SourceError(e.args[0])`; on success the source's opacity is attached.  The
second component counts backend invocations, the third is the log record
(absent when the backend was never invoked). -/
def getMap (s : MSourceM) (q : QueryM) (outcome : RenderOutcome) (dur : ℚ) :
    Except GetMapSignal ImageSrcM × ℕ × Option LogRecord :=
  if resRangeBlocks s q then (.error .blankImage, 0, none)
  else if coverageBlocks s q then (.error .blankImage, 0, none)
  else
    let r := (render s q outcome dur).1
    match r.1 with
    | .ok img => (.ok { img with opacity := s.opacity }, 1, some r.2)
    | .error (.runtime m) => (.error (.sourceError m), 1, some r.2)
    | .error (.http m) => (.error (.sourceError m), 1, some r.2)

/-- Modelled from the spec: the stages of one locked `render` call, per the
`with self.lock()` structure — not yet started, holding the lock before the
backend call, inside the backend call, and finished (lock released). -/
inductive RenderPC where
  | idle
  | locked
  | rendering
  | done
deriving Repr, DecidableEq

/-- The lock is held from acquisition until after the backend returns. -/
def holdsLock : RenderPC → Bool
  | .locked => true
  | .rendering => true
  | _ => false

/-- Joint state of two concurrent `render` calls on the same source. -/
structure TwoRenders where
  t1 : RenderPC
  t2 : RenderPC
deriving Repr, DecidableEq

/-- Modelled from the spec: interleaved execution of two locked `render`
calls.  Each call follows the acquire / invoke / release order of `render`'s
event trace, and the injected lock's mutual exclusion only lets a call
acquire while the other does not hold the lock. -/
inductive RenderStep : TwoRenders → TwoRenders → Prop where
  | acquire1 (o : RenderPC) : holdsLock o = false →
      RenderStep ⟨RenderPC.idle, o⟩ ⟨RenderPC.locked, o⟩
  | invoke1 (o : RenderPC) : RenderStep ⟨RenderPC.locked, o⟩ ⟨RenderPC.rendering, o⟩
  | finish1 (o : RenderPC) : RenderStep ⟨RenderPC.rendering, o⟩ ⟨RenderPC.done, o⟩
  | acquire2 (o : RenderPC) : holdsLock o = false →
      RenderStep ⟨o, RenderPC.idle⟩ ⟨o, RenderPC.locked⟩
  | invoke2 (o : RenderPC) : RenderStep ⟨o, RenderPC.locked⟩ ⟨o, RenderPC.rendering⟩
  | finish2 (o : RenderPC) : RenderStep ⟨o, RenderPC.rendering⟩ ⟨o, RenderPC.done⟩

/-- States reachable from both calls not yet started. -/
inductive RenderReachable : TwoRenders → Prop where
  | init : RenderReachable ⟨RenderPC.idle, RenderPC.idle⟩
  | step {s s' : TwoRenders} : RenderReachable s → RenderStep s s' → RenderReachable s'

/-- Comparing scaled cell edges reduces to an integer comparison. -/
theorem qscale_lt_iff {W : ℚ} (hW : 0 < W) (p q : ℤ) (m l : ℕ) :
    (p : ℚ) * (W / 2 ^ m) < (q : ℚ) * (W / 2 ^ l) ↔ p * 2 ^ l < q * 2 ^ m := by
  rw [show (p : ℚ) * (W / 2 ^ m) = ((p : ℚ) * W) / 2 ^ m by ring,
      show (q : ℚ) * (W / 2 ^ l) = ((q : ℚ) * W) / 2 ^ l by ring,
      div_lt_div_iff₀ (by positivity) (by positivity),
      show (p : ℚ) * W * 2 ^ l = ((p : ℚ) * 2 ^ l) * W by ring,
      show (q : ℚ) * W * 2 ^ m = ((q : ℚ) * 2 ^ m) * W by ring,
      mul_lt_mul_right hW]
  constructor <;> intro h <;> exact_mod_cast h

/-- The non-strict version of `qscale_lt_iff`. -/
theorem qscale_le_iff {W : ℚ} (hW : 0 < W) (p q : ℤ) (m l : ℕ) :
    (p : ℚ) * (W / 2 ^ m) ≤ (q : ℚ) * (W / 2 ^ l) ↔ p * 2 ^ l ≤ q * 2 ^ m := by
  rw [show (p : ℚ) * (W / 2 ^ m) = ((p : ℚ) * W) / 2 ^ m by ring,
      show (q : ℚ) * (W / 2 ^ l) = ((q : ℚ) * W) / 2 ^ l by ring,
      div_le_div_iff₀ (by positivity) (by positivity),
      show (p : ℚ) * W * 2 ^ l = ((p : ℚ) * 2 ^ l) * W by ring,
      show (q : ℚ) * W * 2 ^ m = ((q : ℚ) * 2 ^ m) * W by ring,
      mul_le_mul_right hW]
  constructor <;> intro h <;> exact_mod_cast h

/-- Cancel the shared factor `2 ^ L` on the finer side. -/
theorem int_mul_pow_lt_left (a c : ℤ) (L k : ℕ) :
    a * 2 ^ L < c * 2 ^ (L + k) ↔ a < c * 2 ^ k := by
  rw [pow_add, show c * (2 ^ L * 2 ^ k) = c * 2 ^ k * 2 ^ L by ring,
      mul_lt_mul_right (show (0 : ℤ) < 2 ^ L by positivity)]

/-- Cancel the shared factor `2 ^ L` on the coarser side. -/
theorem int_mul_pow_lt_right (a c : ℤ) (L k : ℕ) :
    a * 2 ^ (L + k) < c * 2 ^ L ↔ a * 2 ^ k < c := by
  rw [pow_add, show a * (2 ^ L * 2 ^ k) = a * 2 ^ k * 2 ^ L by ring,
      mul_lt_mul_right (show (0 : ℤ) < 2 ^ L by positivity)]

/-- The non-strict version of `int_mul_pow_lt_right`. -/
theorem int_mul_pow_le_right (a c : ℤ) (L k : ℕ) :
    a * 2 ^ (L + k) ≤ c * 2 ^ L ↔ a * 2 ^ k ≤ c := by
  rw [pow_add, show a * (2 ^ L * 2 ^ k) = a * 2 ^ k * 2 ^ L by ring,
      mul_le_mul_right (show (0 : ℤ) < 2 ^ L by positivity)]

/-- Strict overlap of a level-`L+k` cell with a level-`L` cell along one
axis, as a window of integer coordinates. -/
theorem axis_window {O W : ℚ} (hW : 0 < W) {x a : ℤ} {L k : ℕ} :
    ((O + (a : ℚ) * (W / 2 ^ (L + k)) < O + ((x : ℚ) + 1) * (W / 2 ^ L)) ∧
      (O + (x : ℚ) * (W / 2 ^ L) < O + ((a : ℚ) + 1) * (W / 2 ^ (L + k)))) ↔
      (x * 2 ^ k ≤ a ∧ a < (x + 1) * 2 ^ k) := by
  rw [add_lt_add_iff_left, add_lt_add_iff_left,
      show ((x : ℚ) + 1) = ((x + 1 : ℤ) : ℚ) by push_cast; ring,
      show ((a : ℚ) + 1) = ((a + 1 : ℤ) : ℚ) by push_cast; ring,
      qscale_lt_iff hW, qscale_lt_iff hW, int_mul_pow_lt_left, int_mul_pow_lt_right,
      add_mul, one_mul]
  omega

/-- The lower-left-corner comparison along one axis, as an integer bound. -/
theorem axis_ll {O W : ℚ} (hW : 0 < W) {x a : ℤ} {L k : ℕ} :
    (O + (x : ℚ) * (W / 2 ^ L) ≤ O + (a : ℚ) * (W / 2 ^ (L + k))) ↔ x * 2 ^ k ≤ a := by
  rw [add_le_add_iff_left, qscale_le_iff hW, int_mul_pow_le_right]

/-- Membership in `intRange n` is exactly the bound `0 ≤ a < n`. -/
theorem mem_intRange {n : ℕ} {a : ℤ} :
    a ∈ intRange n ↔ 0 ≤ a ∧ a < (n : ℤ) := by
  simp only [intRange, List.mem_map, List.mem_range]
  constructor
  · rintro ⟨i, hi, rfl⟩
    constructor
    · exact_mod_cast Nat.zero_le i
    · exact_mod_cast hi
  · rintro ⟨ha0, ha1⟩
    refine ⟨a.toNat, by omega, ?_⟩
    exact_mod_cast Int.toNat_of_nonneg ha0

/-- Membership in one level's coordinate list is exactly the validity bound. -/
theorem mem_levelCoords {L : ℕ} {a b : ℤ} :
    (a, b) ∈ levelCoords L ↔ 0 ≤ a ∧ a < 2 ^ L ∧ 0 ≤ b ∧ b < 2 ^ L := by
  have hc : ((2 ^ L : ℕ) : ℤ) = 2 ^ L := by push_cast; ring
  simp only [levelCoords, List.mem_flatMap, List.mem_map]
  constructor
  · rintro ⟨i, hi, j, hj, heq⟩
    rw [mem_intRange] at hi hj
    rw [Prod.mk.injEq] at heq
    omega
  · rintro ⟨ha0, ha1, hb0, hb1⟩
    exact ⟨a, mem_intRange.mpr (by omega), b, mem_intRange.mpr (by omega), rfl⟩

/-- A coordinate within the level's bounds has the cell's bounding box. -/
theorem tileBBox_some {g : Grid} {x y : ℤ} {L : ℕ}
    (h : 0 ≤ x ∧ x < 2 ^ L ∧ 0 ≤ y ∧ y < 2 ^ L) :
    tileBBox g x y L = some (tileCellBBox g x y L) := by
  rw [tileBBox, if_pos h]

/-- A coordinate outside the level's bounds has no bounding box. -/
theorem tileBBox_none {g : Grid} {x y : ℤ} {L : ℕ}
    (h : ¬(0 ≤ x ∧ x < 2 ^ L ∧ 0 ≤ y ∧ y < 2 ^ L)) :
    tileBBox g x y L = none := by
  rw [tileBBox, if_neg h]

/-- Evaluating `overlapsCell` at a valid coordinate is the plain box-overlap test. -/
theorem overlapsCell_true {g : Grid} {bbox : BBoxQ} {M : ℕ} {a b : ℤ}
    (h : 0 ≤ a ∧ a < 2 ^ M ∧ 0 ≤ b ∧ b < 2 ^ M) :
    overlapsCell g bbox M (a, b) = bboxOverlaps (tileCellBBox g a b M) bbox := by
  simp only [overlapsCell, tileBBox_some h]

/-- Evaluating `keepSubtile` at a valid coordinate is the plain lower-left test. -/
theorem keepSubtile_true {g : Grid} {bbox : BBoxQ} {M : ℕ} {a b : ℤ}
    (h : 0 ≤ a ∧ a < 2 ^ M ∧ 0 ≤ b ∧ b < 2 ^ M) :
    keepSubtile g bbox M (a, b) =
      (decide (bbox.minX ≤ (tileCellBBox g a b M).minX) &&
        decide (bbox.minY ≤ (tileCellBBox g a b M).minY)) := by
  simp only [keepSubtile, tileBBox_some h]

/-- The candidate tiles of level `L + k` affected by the box of the valid
tile `(x, y)` of level `L` are exactly the cells of its descendant window. -/
theorem mem_getAffectedLevelTiles {g : Grid} (hW : 0 < gridWidth g)
    (hH : 0 < gridHeight g) {x y : ℤ} {L : ℕ}
    (hv : 0 ≤ x ∧ x < 2 ^ L ∧ 0 ≤ y ∧ y < 2 ^ L) (k : ℕ) (a b : ℤ) :
    (a, b) ∈ getAffectedLevelTiles g (tileCellBBox g x y L) (L + k) ↔
      (x * 2 ^ k ≤ a ∧ a < (x + 1) * 2 ^ k ∧ y * 2 ^ k ≤ b ∧ b < (y + 1) * 2 ^ k) := by
  have hps : ((2 : ℤ)) ^ (L + k) = 2 ^ L * 2 ^ k := pow_add 2 L k
  unfold getAffectedLevelTiles
  rw [List.mem_filter, mem_levelCoords]
  constructor
  · rintro ⟨hbnd, hcond⟩
    rw [overlapsCell_true hbnd] at hcond
    rw [bboxOverlaps] at hcond
    simp only [Bool.and_eq_true, decide_eq_true_eq, tileCellBBox] at hcond
    obtain ⟨⟨⟨c1, c2⟩, c3⟩, c4⟩ := hcond
    have hx' := (axis_window (O := g.extent.minX) hW (x := x) (a := a) (L := L) (k := k)).mp ⟨c1, c2⟩
    have hy' := (axis_window (O := g.extent.minY) hH (x := y) (a := b) (L := L) (k := k)).mp ⟨c3, c4⟩
    exact ⟨hx'.1, hx'.2, hy'.1, hy'.2⟩
  · rintro ⟨h1, h2, h3, h4⟩
    have hbnd : 0 ≤ a ∧ a < 2 ^ (L + k) ∧ 0 ≤ b ∧ b < 2 ^ (L + k) := by
      have hx0 : 0 ≤ x * 2 ^ k := mul_nonneg hv.1 (by positivity)
      have hxk : (x + 1) * 2 ^ k ≤ 2 ^ (L + k) := by
        rw [hps]
        exact mul_le_mul_of_nonneg_right (by omega) (by positivity)
      have hy0 : 0 ≤ y * 2 ^ k := mul_nonneg hv.2.2.1 (by positivity)
      have hyk : (y + 1) * 2 ^ k ≤ 2 ^ (L + k) := by
        rw [hps]
        exact mul_le_mul_of_nonneg_right (by omega) (by positivity)
      omega
    refine ⟨hbnd, ?_⟩
    rw [overlapsCell_true hbnd, bboxOverlaps]
    simp only [Bool.and_eq_true, decide_eq_true_eq, tileCellBBox]
    have hx' := (axis_window (O := g.extent.minX) hW (x := x) (a := a) (L := L) (k := k)).mpr ⟨h1, h2⟩
    have hy' := (axis_window (O := g.extent.minY) hH (x := y) (a := b) (L := L) (k := k)).mpr ⟨h3, h4⟩
    exact ⟨⟨⟨hx'.1, hx'.2⟩, hy'.1⟩, hy'.2⟩

/-- On this grid the retained subtiles of a valid tile are exactly its four
quad-tree children. -/
theorem mem_getSubtiles {g : Grid} (hW : 0 < gridWidth g) (hH : 0 < gridHeight g)
    {x y : ℤ} {L : ℕ} (hv : 0 ≤ x ∧ x < 2 ^ L ∧ 0 ≤ y ∧ y < 2 ^ L) (a b : ℤ) :
    (a, b) ∈ getSubtiles g x y L ↔
      (2 * x ≤ a ∧ a ≤ 2 * x + 1 ∧ 2 * y ≤ b ∧ b ≤ 2 * y + 1) := by
  simp only [getSubtiles, tileBBox_some hv]
  rw [List.mem_filter, mem_getAffectedLevelTiles hW hH hv 1 a b]
  constructor
  · rintro ⟨hwin, _⟩
    simp only [pow_one] at hwin
    omega
  · intro hr
    have hwin : x * 2 ^ 1 ≤ a ∧ a < (x + 1) * 2 ^ 1 ∧ y * 2 ^ 1 ≤ b ∧ b < (y + 1) * 2 ^ 1 := by
      simp only [pow_one]
      omega
    refine ⟨hwin, ?_⟩
    have hbnd : 0 ≤ a ∧ a < 2 ^ (L + 1) ∧ 0 ≤ b ∧ b < 2 ^ (L + 1) := by
      have hps : (2 : ℤ) ^ (L + 1) = 2 ^ L * 2 := by rw [pow_succ]
      omega
    rw [keepSubtile_true hbnd]
    simp only [Bool.and_eq_true, decide_eq_true_eq, tileCellBBox]
    constructor
    · exact (axis_ll (O := g.extent.minX) hW (x := x) (a := a) (L := L) (k := 1)).mpr
        (by simp only [pow_one]; omega)
    · exact (axis_ll (O := g.extent.minY) hH (x := y) (a := b) (L := L) (k := 1)).mpr
        (by simp only [pow_one]; omega)

/-- On this grid, subdividing a valid tile directly to `level + 2` with the
lower-left rule retains exactly the sixteen grand-children. -/
theorem mem_subdivideTwiceKeepLL {g : Grid} (hW : 0 < gridWidth g)
    (hH : 0 < gridHeight g) {x y : ℤ} {L : ℕ}
    (hv : 0 ≤ x ∧ x < 2 ^ L ∧ 0 ≤ y ∧ y < 2 ^ L) (a b : ℤ) :
    (a, b) ∈ subdivideTwiceKeepLL g x y L ↔
      (4 * x ≤ a ∧ a ≤ 4 * x + 3 ∧ 4 * y ≤ b ∧ b ≤ 4 * y + 3) := by
  have hp2 : (2 : ℤ) ^ 2 = 4 := by norm_num
  simp only [subdivideTwiceKeepLL, tileBBox_some hv]
  rw [List.mem_filter, mem_getAffectedLevelTiles hW hH hv 2 a b]
  constructor
  · rintro ⟨hwin, _⟩
    rw [hp2] at hwin
    omega
  · intro hr
    have hwin : x * 2 ^ 2 ≤ a ∧ a < (x + 1) * 2 ^ 2 ∧ y * 2 ^ 2 ≤ b ∧ b < (y + 1) * 2 ^ 2 := by
      rw [hp2]
      omega
    refine ⟨hwin, ?_⟩
    have hbnd : 0 ≤ a ∧ a < 2 ^ (L + 2) ∧ 0 ≤ b ∧ b < 2 ^ (L + 2) := by
      have hps : (2 : ℤ) ^ (L + 2) = 2 ^ L * 4 := by
        rw [pow_add, hp2]
      omega
    rw [keepSubtile_true hbnd]
    simp only [Bool.and_eq_true, decide_eq_true_eq, tileCellBBox]
    constructor
    · exact (axis_ll (O := g.extent.minX) hW (x := x) (a := a) (L := L) (k := 2)).mpr
        (by rw [hp2]; omega)
    · exact (axis_ll (O := g.extent.minY) hH (x := y) (a := b) (L := L) (k := 2)).mpr
        (by rw [hp2]; omega)

/-- A concrete unit grid in the spherical web-projection reference. -/
def g0 : Grid := { extent := ⟨0, 0, 1, 1⟩, srsCode := 900913, transformToWgs := id }

/-- The level-0 box of `g0`'s single tile. -/
def pb0 : BBoxQ := ⟨0, 0, 1, 1⟩

/-- The level-1 box of `g0`'s tile `(1, 1)`. -/
def sb0 : BBoxQ := ⟨1 / 2, 1 / 2, 1, 1⟩

/-- Claim C1: a candidate child tile of `level+1` with a valid bounding box is
retained by `_get_subtiles` if and only if its lower-left corner lies within
the parent tile's bounding box, inclusive of the parent's own lower-left
corner: `pb.minX ≤ sb.minX ≤ pb.maxX` and `pb.minY ≤ sb.minY ≤ pb.maxY`. -/
theorem subtile_retained_iff (g : Grid) (x y : ℤ) (L : ℕ) (pb : BBoxQ)
    (hpb : tileBBox g x y L = some pb) (a b : ℤ)
    (hcand : (a, b) ∈ getAffectedLevelTiles g pb (L + 1)) (sb : BBoxQ)
    (hsb : tileBBox g a b (L + 1) = some sb) :
    ((a, b) ∈ getSubtiles g x y L ↔
      (pb.minX ≤ sb.minX ∧ sb.minX ≤ pb.maxX ∧ pb.minY ≤ sb.minY ∧ sb.minY ≤ pb.maxY)) := by
  have hov : bboxOverlaps sb pb = true := by
    have hmem := (List.mem_filter.mp hcand).2
    simpa only [overlapsCell, hsb] using hmem
  simp only [bboxOverlaps, Bool.and_eq_true, decide_eq_true_eq] at hov
  obtain ⟨⟨⟨o1, o2⟩, o3⟩, o4⟩ := hov
  simp only [getSubtiles, hpb]
  rw [List.mem_filter]
  constructor
  · rintro ⟨_, hkeep⟩
    simp only [keepSubtile, hsb, Bool.and_eq_true, decide_eq_true_eq] at hkeep
    exact ⟨hkeep.1, le_of_lt o1, hkeep.2, le_of_lt o3⟩
  · rintro ⟨k1, _, k2, _⟩
    refine ⟨hcand, ?_⟩
    simp only [keepSubtile, hsb, Bool.and_eq_true, decide_eq_true_eq]
    exact ⟨k1, k2⟩

/-- The level-0 cell box of `g0` is `pb0`. -/
theorem g0_cell0 : tileCellBBox g0 0 0 0 = pb0 := by
  norm_num [tileCellBBox, gridWidth, gridHeight, g0, pb0]

/-- The grid `g0` is nondegenerate in width. -/
theorem g0_width_pos : 0 < gridWidth g0 := by norm_num [gridWidth, g0]

/-- The grid `g0` is nondegenerate in height. -/
theorem g0_height_pos : 0 < gridHeight g0 := by norm_num [gridHeight, g0]

/-- Witness for C1 at the concrete grid `g0`, parent `(0,0,0)` and candidate
`(1,1)` at level 1. -/
theorem subtile_retained_iff_witness :
    ((1, 1) ∈ getSubtiles g0 0 0 0 ↔
      (pb0.minX ≤ sb0.minX ∧ sb0.minX ≤ pb0.maxX ∧
        pb0.minY ≤ sb0.minY ∧ sb0.minY ≤ pb0.maxY)) :=
  subtile_retained_iff g0 0 0 0 pb0
    (by rw [tileBBox, if_pos (by decide), g0_cell0])
    1 1
    (by
      rw [← g0_cell0]
      exact (mem_getAffectedLevelTiles g0_width_pos g0_height_pos
        (by decide) 1 1 1).mpr (by decide))
    sb0
    (by
      rw [tileBBox, if_pos (by decide)]
      norm_num [tileCellBBox, gridWidth, gridHeight, g0, sb0])

/-- Claim C8: subdividing a valid parent directly to `level+2` and keeping the
tiles whose lower-left corner falls in the parent's box yields the same set of
tiles as subdividing to `level+1` and then subdividing each surviving child. -/
theorem subdivide_twice_compose (g : Grid) (hW : 0 < gridWidth g)
    (hH : 0 < gridHeight g) (x y : ℤ) (L : ℕ)
    (hv : 0 ≤ x ∧ x < 2 ^ L ∧ 0 ≤ y ∧ y < 2 ^ L) (a b : ℤ) :
    ((a, b) ∈ subdivideTwiceKeepLL g x y L ↔
      ∃ c, c ∈ getSubtiles g x y L ∧ (a, b) ∈ getSubtiles g c.1 c.2 (L + 1)) := by
  have hps : (2 : ℤ) ^ (L + 1) = 2 ^ L * 2 := pow_succ 2 L
  rw [mem_subdivideTwiceKeepLL hW hH hv a b]
  constructor
  · rintro ⟨h1, h2, h3, h4⟩
    have main : ∀ u v : ℤ,
        2 * x ≤ u → u ≤ 2 * x + 1 → 2 * y ≤ v → v ≤ 2 * y + 1 →
        2 * u ≤ a → a ≤ 2 * u + 1 → 2 * v ≤ b → b ≤ 2 * v + 1 →
        ∃ c, c ∈ getSubtiles g x y L ∧ (a, b) ∈ getSubtiles g c.1 c.2 (L + 1) := by
      intro u v hu1 hu2 hw1 hw2 ha1 ha2 hb1 hb2
      have hvu : 0 ≤ u ∧ u < 2 ^ (L + 1) ∧ 0 ≤ v ∧ v < 2 ^ (L + 1) := by omega
      exact ⟨(u, v), (mem_getSubtiles hW hH hv u v).mpr (by omega),
        (mem_getSubtiles hW hH hvu a b).mpr (by omega)⟩
    refine main (if 4 * x + 2 ≤ a then 2 * x + 1 else 2 * x)
      (if 4 * y + 2 ≤ b then 2 * y + 1 else 2 * y) ?_ ?_ ?_ ?_ ?_ ?_ ?_ ?_ <;>
      split_ifs <;> omega
  · rintro ⟨⟨u, v⟩, hc, hab⟩
    have hcu := (mem_getSubtiles hW hH hv u v).mp hc
    have hvu : 0 ≤ u ∧ u < 2 ^ (L + 1) ∧ 0 ≤ v ∧ v < 2 ^ (L + 1) := by omega
    have hab' := (mem_getSubtiles hW hH hvu a b).mp hab
    omega

/-- Witness for C8 at the concrete grid `g0`, parent `(0,0,0)` and
grand-child coordinate `(1,1)`. -/
theorem subdivide_twice_compose_witness :
    ((1, 1) ∈ subdivideTwiceKeepLL g0 0 0 0 ↔
      ∃ c, c ∈ getSubtiles g0 0 0 0 ∧ (1, 1) ∈ getSubtiles g0 c.1 c.2 1) :=
  subdivide_twice_compose g0 g0_width_pos g0_height_pos 0 0 0 (by decide) 1 1

/-- Counterexample to claim C3: tile `(2, 0)` at level 0 maps to no valid cell
of `g0`, and the KML handler answers with a `RequestError` rather than
completing without error with zero child regions. -/
theorem kml_out_of_grid_counterexample :
    tileWgsBBox g0 2 0 0 = none ∧
      kmlSubdivide g0 2 0 0 =
        Except.error
          ⟨"The requested tile is outside the bounding box of the tile map.", none⟩ := by
  have h : tileBBox g0 2 0 0 = none := by
    rw [tileBBox, if_neg (by decide)]
  constructor
  · rw [tileWgsBBox, h]
    rfl
  · rw [kmlSubdivide, tileWgsBBox, h]
    rfl

/-- Claim C3 (amended): a requested tile coordinate that maps to no valid cell
of the grid makes the KML request fail with the `RequestError` that reports
the tile as outside the tile map's bounding box, instead of completing with
zero child regions. -/
theorem kml_out_of_grid_raises (g : Grid) (x y : ℤ) (L : ℕ)
    (h : tileBBox g x y L = none) :
    kmlSubdivide g x y L =
      Except.error
        ⟨"The requested tile is outside the bounding box of the tile map.", none⟩ := by
  rw [kmlSubdivide, tileWgsBBox, h]
  rfl

/-- Witness for the amended C3 at the concrete grid `g0` and tile `(2,0,0)`. -/
theorem kml_out_of_grid_raises_witness :
    kmlSubdivide g0 2 0 0 =
      Except.error
        ⟨"The requested tile is outside the bounding box of the tile map.", none⟩ :=
  kml_out_of_grid_raises g0 2 0 0 (by rw [tileBBox, if_neg (by decide)])

/-- Claim C2: in the spherical web-projection reference (EPSG:900913) the
transformed latitude is clamped to exactly `-90` (bottom) and `90` (top)
precisely when the source box's corresponding vertical edge is within absolute
tolerance `0.1` of `∓/±20037508.342789244`; outside the tolerance, and in any
other reference, the transform's own values are kept; the horizontal edges are
never touched. -/
theorem tile_bbox_to_wgs_clamp (g : Grid) (sb : BBoxQ) :
    (g.srsCode = 900913 →
      ((|sb.minY - -webMercMax| < 1 / 10 → (tileBBoxToWgs g sb).minY = -90) ∧
        (¬|sb.minY - -webMercMax| < 1 / 10 →
          (tileBBoxToWgs g sb).minY = (g.transformToWgs sb).minY) ∧
        (|sb.maxY - webMercMax| < 1 / 10 → (tileBBoxToWgs g sb).maxY = 90) ∧
        (¬|sb.maxY - webMercMax| < 1 / 10 →
          (tileBBoxToWgs g sb).maxY = (g.transformToWgs sb).maxY) ∧
        (tileBBoxToWgs g sb).minX = (g.transformToWgs sb).minX ∧
        (tileBBoxToWgs g sb).maxX = (g.transformToWgs sb).maxX)) ∧
    (¬g.srsCode = 900913 → tileBBoxToWgs g sb = g.transformToWgs sb) := by
  constructor
  · intro h9
    refine ⟨fun h => ?_, fun h => ?_, fun h => ?_, fun h => ?_, ?_, ?_⟩
    · simp only [tileBBoxToWgs, if_pos h9, if_pos h]
    · simp only [tileBBoxToWgs, if_pos h9, if_neg h]
    · simp only [tileBBoxToWgs, if_pos h9, if_pos h]
    · simp only [tileBBoxToWgs, if_pos h9, if_neg h]
    · simp only [tileBBoxToWgs, if_pos h9]
    · simp only [tileBBoxToWgs, if_pos h9]
  · intro h9
    simp only [tileBBoxToWgs, if_neg h9]

/-- The full-extent web-mercator box. -/
def sbPole : BBoxQ := ⟨-webMercMax, -webMercMax, webMercMax, webMercMax⟩

/-- Witness for C2: the box at the projection's maximal vertical extent is
clamped to exactly `±90`. -/
theorem tile_bbox_to_wgs_clamp_witness :
    (tileBBoxToWgs g0 sbPole).minY = -90 ∧ (tileBBoxToWgs g0 sbPole).maxY = 90 :=
  ⟨((tile_bbox_to_wgs_clamp g0 sbPole).1 rfl).1 (by norm_num [sbPole, webMercMax]),
    ((tile_bbox_to_wgs_clamp g0 sbPole).1 rfl).2.2.1 (by norm_num [sbPole, webMercMax])⟩

/-- Claim C4: a query outside a configured resolution range, or outside a
configured coverage, makes `get_map` raise the blank-image signal with zero
backend invocations and no render log; the blank signal is distinct from
every render error. -/
theorem get_map_blank_signals (s : MSourceM) (q : QueryM) (outcome : RenderOutcome)
    (dur : ℚ) :
    ((∀ contains, s.resRange = some contains →
        contains q.bbox q.size q.srsCode = false →
        getMap s q outcome dur = (.error .blankImage, 0, none)) ∧
      (resRangeBlocks s q = false →
        ∀ inter, s.coverage = some inter → inter q.bbox q.srsCode = false →
          getMap s q outcome dur = (.error .blankImage, 0, none)) ∧
      (∀ m, (GetMapSignal.blankImage : GetMapSignal) ≠ .sourceError m)) := by
  refine ⟨?_, ?_, ?_⟩
  · intro contains hc hfalse
    have hblk : resRangeBlocks s q = true := by
      simp [resRangeBlocks, hc, hfalse]
    simp [getMap, hblk]
  · intro hres inter hc hfalse
    have hblk : coverageBlocks s q = true := by
      simp [coverageBlocks, hc, hfalse]
    simp [getMap, hres, hblk]
  · intro m h
    exact GetMapSignal.noConfusion h

/-- A source whose configured resolution range rejects everything. -/
def srcRes : MSourceM := ⟨"map.xml", some fun _ _ _ => false, none, false, none⟩

/-- A source whose configured coverage rejects everything. -/
def srcCov : MSourceM := ⟨"map.xml", none, some fun _ _ => false, false, none⟩

/-- A fixed render query. -/
def q0 : QueryM := ⟨⟨0, 0, 1, 1⟩, (256, 256), 4326, "png"⟩

/-- Witness for C4 at the concrete sources `srcRes` and `srcCov`. -/
theorem get_map_blank_signals_witness :
    getMap srcRes q0 (.ok 5) 0 = (.error .blankImage, 0, none) ∧
      getMap srcCov q0 (.ok 5) 0 = (.error .blankImage, 0, none) :=
  ⟨(get_map_blank_signals srcRes q0 (.ok 5) 0).1 _ rfl rfl,
    (get_map_blank_signals srcCov q0 (.ok 5) 0).2.1 rfl _ rfl rfl⟩

/-- Claim C5: a backend `RuntimeError` and a client `HTTPClientError` are both
surfaced by `get_map` as a `SourceError` with the original message, and in the
failure cases as well as the success case a log record is produced carrying
the duration, the status, and the byte size exactly on success. -/
theorem get_map_render_errors (s : MSourceM) (q : QueryM) (dur : ℚ)
    (h1 : resRangeBlocks s q = false) (h2 : coverageBlocks s q = false) :
    ((∀ m, getMap s q (.runtimeFault m) dur =
        (.error (.sourceError m), 1, some ⟨"500", none, dur⟩)) ∧
      (∀ m, getMap s q (.httpFault m) dur =
        (.error (.sourceError m), 1, some ⟨"500", none, dur⟩)) ∧
      (∀ n, 0 < n → getMap s q (.ok n) dur =
        (.ok ⟨n, q.size, s.opacity⟩, 1, some ⟨"200", some n, dur⟩))) := by
  refine ⟨?_, ?_, ?_⟩
  · intro m
    cases hl : s.lock <;> simp [getMap, h1, h2, render, renderMapfile, hl]
  · intro m
    cases hl : s.lock <;> simp [getMap, h1, h2, render, renderMapfile, hl]
  · intro n hn
    cases hl : s.lock <;> simp [getMap, h1, h2, render, renderMapfile, hl, hn]

/-- A source with no applicability checks and no lock. -/
def srcPlain : MSourceM := ⟨"map.xml", none, none, false, none⟩

/-- Witness for C5: the scenario of a backend fault with message
`font not found`, and a successful render of five bytes. -/
theorem get_map_render_errors_witness :
    getMap srcPlain q0 (.runtimeFault "font not found") 7 =
        (.error (.sourceError "font not found"), 1, some ⟨"500", none, 7⟩) ∧
      getMap srcPlain q0 (.ok 5) 7 =
        (.ok ⟨5, q0.size, none⟩, 1, some ⟨"200", some 5, 7⟩) :=
  ⟨(get_map_render_errors srcPlain q0 7 rfl rfl).1 "font not found",
    (get_map_render_errors srcPlain q0 7 rfl rfl).2.2 5 (by decide)⟩

/-- Claim C7: with a lock configured, every `render` call acquires the lock
before the backend invocation and releases it after, on every exit path,
whatever the backend outcome; with no lock configured the backend is invoked
with no lock events at all. -/
theorem render_lock_discipline (s : MSourceM) (q : QueryM) (outcome : RenderOutcome)
    (dur : ℚ) :
    ((s.lock = true → (render s q outcome dur).2 =
        [RenderEv.acquire, RenderEv.invoke, RenderEv.release]) ∧
      (s.lock = false → (render s q outcome dur).2 = [RenderEv.invoke])) := by
  constructor <;> intro h <;> simp [render, h]

/-- A source configured with a lock. -/
def srcLocked : MSourceM := ⟨"map.xml", none, none, true, none⟩

/-- Witness for C7, including a failing backend under the lock. -/
theorem render_lock_discipline_witness :
    (render srcLocked q0 (.runtimeFault "boom") 0).2 =
        [RenderEv.acquire, RenderEv.invoke, RenderEv.release] ∧
      (render srcPlain q0 (.ok 5) 0).2 = [RenderEv.invoke] :=
  ⟨(render_lock_discipline srcLocked q0 (.runtimeFault "boom") 0).1 rfl,
    (render_lock_discipline srcPlain q0 (.ok 5) 0).2 rfl⟩

/-- Claim C6: with the authorization callback present, `authorize_tile_layer`
proceeds on `full`; on `partial` it proceeds exactly when the layer's `tile`
flag is true; in every other case — another `authorized` value, a missing
layer entry, or a missing `tile` flag — it fails with the forbidden error of
status 403. -/
theorem authorize_tile_layer_cases (f : String → List String → AuthResult)
    (name : String) :
    (((f "kml" [name]).authorized = "full" →
        authorizeTileLayer (some f) name = .ok ()) ∧
      ((f "kml" [name]).authorized = "partial" →
        (authorizeTileLayer (some f) name = .ok () ↔
          layerTileFlag (f "kml" [name]).layers name = true)) ∧
      ((f "kml" [name]).authorized ≠ "full" → (f "kml" [name]).authorized ≠ "partial" →
        authorizeTileLayer (some f) name = .error ⟨"forbidden", some 403⟩) ∧
      ((f "kml" [name]).authorized = "partial" →
        layerTileFlag (f "kml" [name]).layers name = false →
        authorizeTileLayer (some f) name = .error ⟨"forbidden", some 403⟩) ∧
      ((f "kml" [name]).layers.lookup name = none →
        layerTileFlag (f "kml" [name]).layers name = false) ∧
      (∀ info, (f "kml" [name]).layers.lookup name = some info → info.tile = none →
        layerTileFlag (f "kml" [name]).layers name = false)) := by
  refine ⟨?_, ?_, ?_, ?_, ?_, ?_⟩
  · intro h
    simp [authorizeTileLayer, h]
  · intro h
    by_cases hf : layerTileFlag (f "kml" [name]).layers name = true <;>
      simp [authorizeTileLayer, h, hf]
  · intro h1 h2
    simp [authorizeTileLayer, h1, h2]
  · intro h hf
    simp [authorizeTileLayer, h, hf]
  · intro h
    simp [layerTileFlag, h]
  · intro info h1 h2
    simp [layerTileFlag, h1, h2]

/-- An authorization callback answering `partial` with the `tile` flag set for
every requested layer. -/
def authPartial : String → List String → AuthResult :=
  fun _ names => ⟨"partial", names.map fun n => (n, ⟨some true⟩)⟩

/-- Witness for C6 at the concrete callback `authPartial`. -/
theorem authorize_tile_layer_cases_witness :
    (authorizeTileLayer (some authPartial) "roads" = .ok () ↔
      layerTileFlag (authPartial "kml" ["roads"]).layers "roads" = true) :=
  (authorize_tile_layer_cases authPartial "roads").2.1 rfl

/-- Claim C10: without a `mapproxy.authorize` entry in the environment,
`authorize_tile_layer` returns without raising, and a forbidden error can only
arise when a callback is present. -/
theorem authorize_absent_no_check :
    ((∀ name, authorizeTileLayer none name = .ok ()) ∧
      (∀ (auth : Option (String → List String → AuthResult)) name e,
        authorizeTileLayer auth name = .error e → ∃ f, auth = some f)) := by
  constructor
  · intro name
    rfl
  · intro auth name e h
    cases auth with
    | none => exact absurd h (by simp [authorizeTileLayer])
    | some f => exact ⟨f, rfl⟩

/-- An authorization callback answering `none`. -/
def authDeny : String → List String → AuthResult := fun _ _ => ⟨"none", []⟩

/-- Witness for C10: the empty environment proceeds, and a concrete forbidden
answer implies the callback was present. -/
theorem authorize_absent_no_check_witness :
    authorizeTileLayer none "roads" = .ok () ∧ ∃ f, some authDeny = some f :=
  ⟨authorize_absent_no_check.1 "roads",
    authorize_absent_no_check.2 (some authDeny) "roads" ⟨"forbidden", some 403⟩
      (by simp [authorizeTileLayer, authDeny, layerTileFlag])⟩

/-- Claim C9: with a lock configured, two concurrent `render` calls are never
simultaneously inside the backend invocation in any reachable interleaving. -/
theorem render_mutual_exclusion (s : TwoRenders) (h : RenderReachable s) :
    ¬(s.t1 = RenderPC.rendering ∧ s.t2 = RenderPC.rendering) := by
  have key : ∀ t, RenderReachable t →
      ¬(holdsLock t.t1 = true ∧ holdsLock t.t2 = true) := by
    intro t ht
    induction ht with
    | init => simp [holdsLock]
    | step hr hs ih => cases hs <;> simp_all [holdsLock]
  intro hc
  exact key s h (by rw [hc.1, hc.2]; exact ⟨rfl, rfl⟩)

/-- Witness for C9 at a state with one call inside the backend, reached by
acquiring the lock and invoking the backend. -/
theorem render_mutual_exclusion_witness :
    ¬((⟨RenderPC.rendering, RenderPC.idle⟩ : TwoRenders).t1 = RenderPC.rendering ∧
      (⟨RenderPC.rendering, RenderPC.idle⟩ : TwoRenders).t2 = RenderPC.rendering) :=
  render_mutual_exclusion ⟨RenderPC.rendering, RenderPC.idle⟩
    (RenderReachable.step
      (RenderReachable.step RenderReachable.init (RenderStep.acquire1 RenderPC.idle rfl))
      (RenderStep.invoke1 RenderPC.idle))
